import Mathlib

/-!
Verification of the webgwas-backend state manager (src/src/lib.rs) : the
`ResultsCache` LRU wrapper and the effectful steps of `AppState::new`.

Conventions of the embedding:
* `Uuid` request identifiers are modelled as `Nat`.
* Filesystem paths are `String`s.
* A Rust panic (`unwrap` / `expect` failure) is modelled as `none` (for cache
  operations) or as the `StartupOutcome.panicked` constructor (for startup).
* A recoverable `Err` return is `Except.error` / `StartupOutcome.failed`.
-/

/-- Modelled from the spec: `WebGWASResult` is declared in the `models` module,
whose file is not part of the provided source. Per the spec it is the outcome of
processing one request, keyed by its request identifier, plus an optional path
to a locally-materialized result artifact on disk. Only the two fields that
`ResultsCache` touches are modelled; the request identifier (a 128-bit token)
is modelled as `Nat`. -/
structure WebGWASResult where
  request_id : Nat
  local_result_file : Option String
deriving DecidableEq

/-- Modelled from the spec: `hashlru::Cache<Uuid, WebGWASResult>` is an external
dependency whose source is not in the repository. The spec (sections 4.2 and 8)
describes its behavior: a bounded map with least-recently-used eviction, where
recency is updated on every successful `get`, `get_mut` and `insert`. The
entries list is kept most-recently-used first, least-recently-used last. -/
structure HashLruCache where
  capacity : Nat
  entries : List (Nat × WebGWASResult)
deriving DecidableEq

namespace HashLruCache

/-- Modelled from the spec: `hashlru::Cache::new(capacity)` makes an empty cache. -/
def new (capacity : Nat) : HashLruCache := ⟨capacity, []⟩

/-- Modelled from the spec: `is_full` reports that the cache holds at least
`capacity` entries (for capacity 0 an empty cache is already full). -/
def is_full (c : HashLruCache) : Bool := c.capacity ≤ c.entries.length

/-- Modelled from the spec: `lru()` returns the least-recently-used key, `None`
on an empty cache. -/
def lru (c : HashLruCache) : Option Nat := c.entries.getLast?.map Prod.fst

/-- Lookup of a key in the entries list (the `HashMap` part of `hashlru`). -/
def lookup (entries : List (Nat × WebGWASResult)) (key : Nat) :
    Option WebGWASResult :=
  match entries.find? (fun e => e.1 == key) with
  | some e => some e.2
  | none => none

/-- Removal of every binding of `key` (a `HashMap` holds at most one). -/
def eraseKey (entries : List (Nat × WebGWASResult)) (key : Nat) :
    List (Nat × WebGWASResult) :=
  entries.filter (fun e => e.1 != key)

/-- Modelled from the spec: `remove(&key)` deletes the binding and returns its
value, `None` when the key is absent. -/
def remove (c : HashLruCache) (key : Nat) :
    Option (WebGWASResult × HashLruCache) :=
  match lookup c.entries key with
  | some v => some (v, ⟨c.capacity, eraseKey c.entries key⟩)
  | none => none

/-- Modelled from the spec: `hashlru::Cache::insert` updates and promotes an
existing key, otherwise inserts at the most-recently-used end, silently
dropping the least-recently-used entry first when already full. -/
def insert (c : HashLruCache) (key : Nat) (v : WebGWASResult) : HashLruCache :=
  if (lookup c.entries key).isSome then
    ⟨c.capacity, (key, v) :: eraseKey c.entries key⟩
  else if c.is_full then
    ⟨c.capacity, (key, v) :: c.entries.dropLast⟩
  else
    ⟨c.capacity, (key, v) :: c.entries⟩

/-- Modelled from the spec: `get` returns the value and marks it
most-recently-used; no effect on a miss. -/
def get (c : HashLruCache) (key : Nat) : Option WebGWASResult × HashLruCache :=
  match lookup c.entries key with
  | some v => (some v, ⟨c.capacity, (key, v) :: eraseKey c.entries key⟩)
  | none => (none, c)

/-- Modelled from the spec: `get_mut` behaves like `get` on the cache state,
returning a mutable borrow instead of a shared one. -/
def get_mut (c : HashLruCache) (key : Nat) :
    Option WebGWASResult × HashLruCache :=
  match lookup c.entries key with
  | some v => (some v, ⟨c.capacity, (key, v) :: eraseKey c.entries key⟩)
  | none => (none, c)

end HashLruCache

/-- Embedding of `ResultsCache` (src/src/lib.rs lines 142-144). -/
structure ResultsCache where
  id_to_result : HashLruCache
deriving DecidableEq

/-- Embedding of `ResultsCache::new` (lib.rs lines 147-151). -/
def ResultsCache.new (capacity : Nat) : ResultsCache := ⟨HashLruCache.new capacity⟩

/-- Embedding of `ResultsCache::insert` (lib.rs lines 153-163). `none` models a
panic: the `unwrap` on `lru()`, the `expect` on `remove`, or the `expect` on
`local_result_file`. On success the result carries the updated cache and the
file path whose synchronous deletion the eviction requested, if any (the
`std::fs::remove_file` call itself is an external effect; its own failure,
which the code also unwraps, is outside the cache state). -/
def ResultsCache.insert (c : ResultsCache) (result : WebGWASResult) :
    Option (ResultsCache × Option String) :=
  if c.id_to_result.is_full then
    match c.id_to_result.lru with
    | none => none
    | some lru_key =>
      match c.id_to_result.remove lru_key with
      | none => none
      | some (lru_value, removed) =>
        match lru_value.local_result_file with
        | none => none
        | some file_path =>
          some (⟨removed.insert result.request_id result⟩, some file_path)
  else
    some (⟨c.id_to_result.insert result.request_id result⟩, none)

/-- Embedding of `ResultsCache::get` (lib.rs lines 165-167): the returned
borrow and the cache state after the recency bump. -/
def ResultsCache.get (c : ResultsCache) (id : Nat) :
    Option WebGWASResult × ResultsCache :=
  ((c.id_to_result.get id).1, ⟨(c.id_to_result.get id).2⟩)

/-- Embedding of `ResultsCache::get_mut` (lib.rs lines 169-171). -/
def ResultsCache.get_mut (c : ResultsCache) (id : Nat) :
    Option WebGWASResult × ResultsCache :=
  ((c.id_to_result.get_mut id).1, ⟨(c.id_to_result.get_mut id).2⟩)

/-- Operations of the `ResultsCache` public interface, for reasoning about
arbitrary call sequences. -/
inductive CacheOp where
  | ins (result : WebGWASResult)
  | get (id : Nat)
  | getMut (id : Nat)
deriving DecidableEq

/-- One cache operation; `none` models a panic aborting the sequence. -/
def ResultsCache.step (c : ResultsCache) : CacheOp → Option ResultsCache
  | .ins result => (c.insert result).map Prod.fst
  | .get id => some (c.get id).2
  | .getMut id => some (c.get_mut id).2

/-- Run a sequence of cache operations from a starting state. -/
def ResultsCache.run (c : ResultsCache) : List CacheOp → Option ResultsCache
  | [] => some c
  | op :: ops =>
    match c.step op with
    | none => none
    | some c2 => c2.run ops

/-- Modelled from the spec: `PhenotypeFitQuality` is declared in the `models`
module, whose file is not part of the provided source; per the spec it is a
pair of a phenotype fit quality and a GWAS fit quality. The `f32` payloads are
modelled as `Int` — the loader performs no arithmetic on them, only
presence/absence tests. -/
structure PhenotypeFitQuality where
  phenotype_fit_quality : Int
  gwas_fit_quality : Int
deriving DecidableEq

/-- Embedding of `collect::<Option<Vec<_>>>()`: all-or-nothing collection. -/
def collectOption {α : Type} : List (Option α) → Option (List α)
  | [] => some []
  | none :: _ => none
  | some a :: rest => (collectOption rest).map (a :: ·)

/-- Embedding of the per-row closure at lib.rs lines 115-120: a zipped row
`(g, p)` yields a `PhenotypeFitQuality` when both cells are present, otherwise
`None` (the `p?` / `g?` early returns). -/
def fitQualityRow (gp : Option Int × Option Int) : Option PhenotypeFitQuality :=
  match gp.2, gp.1 with
  | some p, some g => some ⟨p, g⟩
  | _, _ => none

/-- Embedding of the fit-quality reference load (lib.rs lines 110-122): the
`gwas_r2` column is zipped with the `phenotype_r2` column, each zipped row must
have both cells present, and the rows are collected all-or-nothing. A `none`
cell models a null in the parquet column. -/
def loadFitQuality (gwas_r2 phenotype_r2 : List (Option Int)) :
    Option (List PhenotypeFitQuality) :=
  collectOption ((gwas_r2.zip phenotype_r2).map fitQualityRow)

/-- Filesystem state visible to startup: whether the results directory exists,
the files inside it, and the unrelated files under the root. -/
structure Fs where
  results_dir_exists : Bool
  results_files : List String
  other_files : List String
deriving DecidableEq

/-- Outcome of a startup computation: a panic (`expect` failure), an error
return (`Err`), or success. -/
inductive StartupOutcome (α : Type) where
  | panicked (msg : String)
  | failed (msg : String)
  | ok (value : α)
deriving DecidableEq

/-- Embedding of the results-directory cleanup (lib.rs lines 48-58): when the
directory exists it is removed in its entirety — an error there is returned,
not swallowed — and in every non-error path `create_dir_all` then recreates it
empty. `remove_dir_fails` models the environment making `remove_dir_all`
fail. -/
def setupResultsDir (fs : Fs) (remove_dir_fails : Bool) : Except String Fs :=
  if fs.results_dir_exists then
    if remove_dir_fails then
      Except.error "Failed to clear results directory"
    else
      Except.ok ⟨true, [], fs.other_files⟩
  else
    Except.ok ⟨true, [], fs.other_files⟩

/-- Environment presented to `AppState::new`: the `HOME` variable, the
filesystem under the root, whether `remove_dir_all` would fail, whether the
database/cohort/feature/S3 stages (lib.rs lines 59-102, abstracted) succeed,
whether the fit-quality parquet file opens and parses, its two columns, and the
configured cache capacity. -/
structure StartupEnv where
  home : Option String
  fs : Fs
  remove_dir_fails : Bool
  db_and_cohorts_ok : Bool
  fit_quality_file_ok : Bool
  gwas_r2 : List (Option Int)
  phenotype_r2 : List (Option Int)
  cache_capacity : Nat
deriving DecidableEq

/-- The fields of `AppState` (lib.rs lines 32-42) that the verified claims
concern: the root directory, the fully-loaded fit-quality reference and the
results cache. -/
structure AppState where
  root_directory : String
  fit_quality_reference : List PhenotypeFitQuality
  results : ResultsCache
deriving DecidableEq

/-- Embedding of `AppState::new` (lib.rs lines 45-139), restricted to the
effects the claims concern. Line 46 reads `HOME` with `expect`, so a missing
`HOME` is a panic, not an error return. Lines 48-58 clear and recreate the
results directory, surfacing a failed removal as an error. The database,
cohort, feature and S3 stages (lines 59-102) are abstracted into one may-fail
stage. Lines 104-122 open and decode the fit-quality file; a null cell aborts
with an error, so no partially-loaded reference is ever placed in the state.
Line 124 builds the results cache at the configured capacity. The final
filesystem state is returned alongside the constructed state. -/
def appStateNew (env : StartupEnv) : StartupOutcome (AppState × Fs) :=
  match env.home with
  | none => .panicked "Failed to read $HOME"
  | some home =>
    match setupResultsDir env.fs env.remove_dir_fails with
    | .error msg => .failed msg
    | .ok fs2 =>
      if env.db_and_cohorts_ok = false then
        .failed "Failed to connect to database"
      else if env.fit_quality_file_ok = false then
        .failed "Failed to open fit quality file"
      else
        match loadFitQuality env.gwas_r2 env.phenotype_r2 with
        | none => .failed "Failed to load fit quality reference"
        | some reference =>
          .ok (⟨home ++ "/webgwas", reference,
            ResultsCache.new env.cache_capacity⟩, fs2)

namespace HashLruCache

lemma lookup_mem {es : List (Nat × WebGWASResult)} {k : Nat} {v : WebGWASResult}
    (h : lookup es k = some v) : (k, v) ∈ es := by
  unfold lookup at h
  split at h
  · rename_i e hf
    obtain ⟨a, b⟩ := e
    simp only [Option.some.injEq] at h
    have hm := List.mem_of_find?_eq_some hf
    have hk := List.find?_some hf
    simp only [beq_iff_eq] at hk
    subst h
    subst hk
    exact hm
  · cases h

lemma length_eraseKey_lt {es : List (Nat × WebGWASResult)} {k : Nat}
    {v : WebGWASResult} (h : (k, v) ∈ es) :
    (eraseKey es k).length < es.length := by
  induction es with
  | nil => cases h
  | cons hd tl ih =>
    simp only [eraseKey, List.filter_cons] at *
    rcases List.mem_cons.mp h with heq | hmem
    · rw [← heq]
      simp only [bne_self_eq_false, Bool.false_eq_true, if_false]
      exact Nat.lt_succ_of_le (List.length_filter_le _ tl)
    · have ihl := ih hmem
      split
      · simpa using Nat.succ_lt_succ ihl
      · exact Nat.lt_succ_of_lt ihl

lemma length_eraseKey_le (es : List (Nat × WebGWASResult)) (k : Nat) :
    (eraseKey es k).length ≤ es.length :=
  List.length_filter_le _ es

lemma mem_eraseKey {es : List (Nat × WebGWASResult)} {k : Nat}
    {e : Nat × WebGWASResult} (he : e ∈ eraseKey es k) :
    e ∈ es ∧ e.1 ≠ k := by
  simpa [eraseKey] using he

lemma mem_of_getLast_eq_some {α : Type} {l : List α} {a : α}
    (h : l.getLast? = some a) : a ∈ l := by
  have hm : a ∈ l.getLast? := by rw [h]; rfl
  obtain ⟨hne, rfl⟩ := List.mem_getLast?_eq_getLast hm
  exact List.getLast_mem hne

lemma lookup_getLast_of_nodup {es : List (Nat × WebGWASResult)}
    (hnd : (es.map Prod.fst).Nodup) {k : Nat} {v : WebGWASResult}
    (hlast : es.getLast? = some (k, v)) :
    lookup es k = some v := by
  have hmem : (k, v) ∈ es := mem_of_getLast_eq_some hlast
  have hex : ∃ e ∈ es, (fun (e : Nat × WebGWASResult) => e.1 == k) e = true :=
    ⟨(k, v), hmem, by simp⟩
  have hsome := List.find?_isSome.mpr hex
  cases hf : es.find? (fun e => e.1 == k) with
  | none => rw [hf] at hsome; cases hsome
  | some e =>
    have he_mem := List.mem_of_find?_eq_some hf
    have he_k := List.find?_some hf
    simp only [beq_iff_eq] at he_k
    have he : e = (k, v) :=
      List.inj_on_of_nodup_map hnd he_mem hmem (by simpa using he_k)
    unfold lookup
    rw [hf, he]

lemma capacity_insert (c : HashLruCache) (k : Nat) (v : WebGWASResult) :
    (c.insert k v).capacity = c.capacity := by
  unfold insert
  split
  · rfl
  · split <;> rfl

lemma length_insert_le (c : HashLruCache) (k : Nat) (v : WebGWASResult) :
    (c.insert k v).entries.length ≤ c.entries.length + 1 := by
  unfold insert
  split
  · simpa using Nat.succ_le_succ (length_eraseKey_le c.entries k)
  · split
    · simp only [List.length_cons]
      have := List.length_dropLast c.entries
      omega
    · simp

lemma insert_head (c : HashLruCache) (k : Nat) (v : WebGWASResult) :
    (c.insert k v).entries.head? = some (k, v) := by
  unfold insert
  split
  · rfl
  · split <;> rfl

lemma mem_insert (c : HashLruCache) (k : Nat) (v : WebGWASResult)
    (e : Nat × WebGWASResult) (he : e ∈ (c.insert k v).entries) :
    e = (k, v) ∨ e ∈ c.entries := by
  unfold insert at he
  split at he
  · rcases List.mem_cons.mp he with h1 | h2
    · exact Or.inl h1
    · exact Or.inr (mem_eraseKey h2).1
  · split at he
    · rcases List.mem_cons.mp he with h1 | h2
      · exact Or.inl h1
      · exact Or.inr (List.dropLast_subset _ h2)
    · rcases List.mem_cons.mp he with h1 | h2
      · exact Or.inl h1
      · exact Or.inr h2

lemma get_spec (c : HashLruCache) (k : Nat) :
    ((c.get k).2).capacity = c.capacity ∧
    (c.entries.length ≤ c.capacity →
      ((c.get k).2).entries.length ≤ c.capacity) := by
  unfold get
  cases hl : lookup c.entries k with
  | none => exact ⟨rfl, fun h => h⟩
  | some v =>
    refine ⟨rfl, fun h => ?_⟩
    simp only [List.length_cons]
    have := length_eraseKey_lt (lookup_mem hl)
    omega

lemma get_mut_eq_get (c : HashLruCache) (k : Nat) : c.get_mut k = c.get k := rfl

lemma remove_spec (c : HashLruCache) (k : Nat) (v : WebGWASResult)
    (c2 : HashLruCache) (h : c.remove k = some (v, c2)) :
    lookup c.entries k = some v ∧
    c2 = ⟨c.capacity, eraseKey c.entries k⟩ := by
  unfold remove at h
  split at h
  · rename_i w hw
    simp only [Option.some.injEq, Prod.mk.injEq] at h
    obtain ⟨h1, h2⟩ := h
    subst h1
    exact ⟨hw, h2.symm⟩
  · cases h

end HashLruCache

lemma insert_success_spec (c : ResultsCache) (result : WebGWASResult)
    (c' : ResultsCache) (p : Option String)
    (h : c.insert result = some (c', p)) :
    c'.id_to_result.capacity = c.id_to_result.capacity ∧
    (c.id_to_result.entries.length ≤ c.id_to_result.capacity →
      c'.id_to_result.entries.length ≤ c.id_to_result.capacity) := by
  unfold ResultsCache.insert at h
  split at h
  · split at h
    · cases h
    · rename_i k hlru
      split at h
      · cases h
      · rename_i pr v removed hrem
        split at h
        · cases h
        · rename_i path hfile
          simp only [Option.some.injEq, Prod.mk.injEq] at h
          obtain ⟨h1, _⟩ := h
          subst h1
          obtain ⟨hv, hrm⟩ := HashLruCache.remove_spec _ _ _ _ hrem
          have hmem := HashLruCache.lookup_mem hv
          have hlt := HashLruCache.length_eraseKey_lt hmem
          have hcap := HashLruCache.capacity_insert removed result.request_id result
          have hlen := HashLruCache.length_insert_le removed result.request_id result
          have hrm_cap : removed.capacity = c.id_to_result.capacity := by rw [hrm]
          have hrm_len : removed.entries.length < c.id_to_result.entries.length := by
            rw [hrm]; exact hlt
          constructor
          · show (removed.insert result.request_id result).capacity =
              c.id_to_result.capacity
            rw [hcap, hrm_cap]
          · intro hinv
            show (removed.insert result.request_id result).entries.length ≤
              c.id_to_result.capacity
            omega
  · rename_i hfull
    simp only [Option.some.injEq, Prod.mk.injEq] at h
    obtain ⟨h1, _⟩ := h
    subst h1
    have hcap := HashLruCache.capacity_insert c.id_to_result result.request_id result
    have hlen := HashLruCache.length_insert_le c.id_to_result result.request_id result
    have hnf : ¬ (c.id_to_result.capacity ≤ c.id_to_result.entries.length) := by
      simpa [HashLruCache.is_full] using hfull
    refine ⟨hcap, fun _ => ?_⟩
    show (c.id_to_result.insert result.request_id result).entries.length ≤
      c.id_to_result.capacity
    omega

lemma step_preserves (c : ResultsCache) (op : CacheOp) (c' : ResultsCache)
    (hinv : c.id_to_result.entries.length ≤ c.id_to_result.capacity)
    (h : c.step op = some c') :
    c'.id_to_result.entries.length ≤ c'.id_to_result.capacity ∧
    c'.id_to_result.capacity = c.id_to_result.capacity := by
  cases op with
  | ins result =>
    simp only [ResultsCache.step, Option.map_eq_some'] at h
    obtain ⟨⟨c2, p⟩, hins, hfst⟩ := h
    have := insert_success_spec c result c2 p hins
    subst hfst
    exact ⟨this.1 ▸ this.2 hinv, this.1⟩
  | get id =>
    simp only [ResultsCache.step, Option.some.injEq] at h
    subst h
    obtain ⟨hcap, hlen⟩ := HashLruCache.get_spec c.id_to_result id
    exact ⟨by simpa [ResultsCache.get, hcap] using hlen hinv,
      by simpa [ResultsCache.get] using hcap⟩
  | getMut id =>
    simp only [ResultsCache.step, Option.some.injEq] at h
    subst h
    obtain ⟨hcap, hlen⟩ := HashLruCache.get_spec c.id_to_result id
    exact ⟨by simpa [ResultsCache.get_mut, HashLruCache.get_mut_eq_get, hcap] using hlen hinv,
      by simpa [ResultsCache.get_mut, HashLruCache.get_mut_eq_get] using hcap⟩

lemma run_preserves (ops : List CacheOp) (c c' : ResultsCache)
    (hinv : c.id_to_result.entries.length ≤ c.id_to_result.capacity)
    (h : c.run ops = some c') :
    c'.id_to_result.entries.length ≤ c'.id_to_result.capacity ∧
    c'.id_to_result.capacity = c.id_to_result.capacity := by
  induction ops generalizing c with
  | nil =>
    unfold ResultsCache.run at h
    simp only [Option.some.injEq] at h
    subst h
    exact ⟨hinv, rfl⟩
  | cons op ops ih =>
    unfold ResultsCache.run at h
    cases hs : c.step op with
    | none => rw [hs] at h; cases h
    | some c2 =>
      rw [hs] at h
      obtain ⟨h1, h2⟩ := step_preserves c op c2 hinv hs
      obtain ⟨h3, h4⟩ := ih c2 (h2 ▸ h1) h
      exact ⟨h3, h4.trans h2⟩

lemma get_hit (c : HashLruCache) (k : Nat) (v : WebGWASResult)
    (h : HashLruCache.lookup c.entries k = some v) :
    c.get k = (some v, ⟨c.capacity, (k, v) :: HashLruCache.eraseKey c.entries k⟩) := by
  unfold HashLruCache.get
  rw [h]

lemma get_miss (c : HashLruCache) (k : Nat)
    (h : HashLruCache.lookup c.entries k = none) : c.get k = (none, c) := by
  unfold HashLruCache.get
  rw [h]

lemma insert_full_evicts_lru (c : ResultsCache) (result : WebGWASResult)
    (c' : ResultsCache) (p : Option String)
    (hnd : (c.id_to_result.entries.map Prod.fst).Nodup)
    (hfull : c.id_to_result.is_full = true)
    (h : c.insert result = some (c', p)) :
    ∃ k v, c.id_to_result.entries.getLast? = some (k, v) ∧
      p = v.local_result_file ∧
      (result.request_id ≠ k → ∀ e ∈ c'.id_to_result.entries, e.1 ≠ k) := by
  unfold ResultsCache.insert at h
  split at h
  · split at h
    · cases h
    · rename_i k hlru
      split at h
      · cases h
      · rename_i pr v removed hrem
        split at h
        · cases h
        · rename_i path hfile
          simp only [Option.some.injEq, Prod.mk.injEq] at h
          obtain ⟨h1, h2⟩ := h
          subst h1
          obtain ⟨hv, hrm⟩ := HashLruCache.remove_spec _ _ _ _ hrem
          obtain ⟨⟨k0, w⟩, hlast, hfst⟩ := Option.map_eq_some'.mp hlru
          have hk0 : k = k0 := hfst.symm
          subst hk0
          have hlw := HashLruCache.lookup_getLast_of_nodup hnd hlast
          rw [hv] at hlw
          simp only [Option.some.injEq] at hlw
          subst hlw
          refine ⟨k, v, hlast, ?_, ?_⟩
          · rw [← h2, hfile]
          · intro hne e he
            rcases HashLruCache.mem_insert removed result.request_id result e he
              with h1 | h1
            · rw [h1]
              exact hne
            · rw [hrm] at h1
              exact (HashLruCache.mem_eraseKey h1).2
  · rename_i hns
    exact absurd hfull hns

lemma rc_insert_head (c : ResultsCache) (r : WebGWASResult) (c' : ResultsCache)
    (p : Option String) (h : c.insert r = some (c', p)) :
    c'.id_to_result.entries.head? = some (r.request_id, r) := by
  unfold ResultsCache.insert at h
  split at h
  · split at h
    · cases h
    · split at h
      · cases h
      · split at h
        · cases h
        · simp only [Option.some.injEq, Prod.mk.injEq] at h
          obtain ⟨h1, _⟩ := h
          subst h1
          exact HashLruCache.insert_head _ _ _
  · simp only [Option.some.injEq, Prod.mk.injEq] at h
    obtain ⟨h1, _⟩ := h
    subst h1
    exact HashLruCache.insert_head _ _ _

lemma rc_get_hit_head (c : ResultsCache) (id : Nat) (v : WebGWASResult)
    (h : (c.get id).1 = some v) :
    ((c.get id).2).id_to_result.entries.head? = some (id, v) := by
  cases hl : HashLruCache.lookup c.id_to_result.entries id with
  | none =>
    have hm := get_miss c.id_to_result id
    have h1 : (c.get id).1 = none := by
      show (c.id_to_result.get id).1 = none
      rw [hm hl]
    rw [h1] at h
    cases h
  | some w =>
    have hg := get_hit c.id_to_result id w hl
    have h1 : (c.get id).1 = some w := by
      show (c.id_to_result.get id).1 = some w
      rw [hg]
    rw [h1] at h
    simp only [Option.some.injEq] at h
    subst h
    show ((c.id_to_result.get id).2).entries.head? = some (id, w)
    rw [hg]
    rfl

lemma rc_get_mut_eq_get (c : ResultsCache) (id : Nat) :
    c.get_mut id = c.get id := rfl

lemma insert_full_success (c : ResultsCache) (result : WebGWASResult) (k : Nat)
    (v : WebGWASResult) (path : String)
    (hfull : c.id_to_result.is_full = true)
    (hk : c.id_to_result.lru = some k)
    (hv : HashLruCache.lookup c.id_to_result.entries k = some v)
    (hfile : v.local_result_file = some path) :
    c.insert result =
      some (⟨HashLruCache.insert
          ⟨c.id_to_result.capacity, HashLruCache.eraseKey c.id_to_result.entries k⟩
          result.request_id result⟩, some path) := by
  have hrem : c.id_to_result.remove k =
      some (v, ⟨c.id_to_result.capacity,
        HashLruCache.eraseKey c.id_to_result.entries k⟩) := by
    unfold HashLruCache.remove
    rw [hv]
  unfold ResultsCache.insert
  split
  · rw [hk]
    dsimp only
    rw [hrem]
    dsimp only
    rw [hfile]
  · rename_i hns
    exact absurd hfull hns

/-- C1 counterexample: a full cache of capacity 1 whose single (hence
least-recently-used) entry has no `local_result_file`; the next insert hits the
`expect("No local result file")` at lib.rs line 157 and panics (`none`),
instead of completing the eviction without a deletion as the claim states. -/
theorem insert_evicted_missing_file_cex :
    (ResultsCache.mk ⟨1, [(5, ⟨5, none⟩)]⟩).insert ⟨6, some "f6"⟩ = none := rfl

/-- C1 (amended): on an insert into a full `ResultsCache`, if the evicted
(least-recently-used) entry has no `local_result_file`, the insert panics on
the `expect` at lib.rs line 157 — no file deletion is attempted, but the
eviction does not complete either. -/
theorem insert_evicted_missing_file_panics (c : ResultsCache)
    (result : WebGWASResult) (hfull : c.id_to_result.is_full = true) (k : Nat)
    (hk : c.id_to_result.lru = some k) (v : WebGWASResult)
    (hv : HashLruCache.lookup c.id_to_result.entries k = some v)
    (hfile : v.local_result_file = none) :
    c.insert result = none := by
  have hrem : c.id_to_result.remove k =
      some (v, ⟨c.id_to_result.capacity,
        HashLruCache.eraseKey c.id_to_result.entries k⟩) := by
    unfold HashLruCache.remove
    rw [hv]
  unfold ResultsCache.insert
  split
  · rw [hk]
    dsimp only
    rw [hrem]
    dsimp only
    rw [hfile]
  · rename_i hns
    exact absurd hfull hns

/-- Witness for the amended C1 theorem at a capacity-2 cache whose
least-recently-used entry lacks a file path. -/
theorem insert_evicted_missing_file_panics_witness :
    (ResultsCache.mk ⟨2, [(1, ⟨1, some "a"⟩), (2, ⟨2, none⟩)]⟩).insert
      ⟨9, some "z"⟩ = none :=
  insert_evicted_missing_file_panics
    ⟨⟨2, [(1, ⟨1, some "a"⟩), (2, ⟨2, none⟩)]⟩⟩ ⟨9, some "z"⟩ rfl 2 rfl
    ⟨2, none⟩ rfl rfl

/-- C2 counterexample: a full cache of capacity 1 holding the key 1; inserting
an update for the same key 1 nevertheless evicts and requests deletion of the
old entry's file "fa", though the claim says an update of a present key in a
full cache evicts nothing and deletes no file. -/
theorem insert_full_existing_key_evicts_cex :
    (ResultsCache.mk ⟨1, [(1, ⟨1, some "fa"⟩)]⟩).insert ⟨1, some "fb"⟩ =
      some (⟨⟨1, [(1, ⟨1, some "fb"⟩)]⟩⟩, some "fa") := rfl

/-- C2 (amended): `ResultsCache::insert` (lib.rs lines 153-163) triggers
eviction whenever the cache is at capacity, regardless of whether the inserted
key is already present: the `is_full` check at line 154 does not consult the
key, so even an update of a present key evicts the current least-recently-used
entry and requests deletion of its file. -/
theorem insert_full_evicts_even_existing_key (c : ResultsCache)
    (result : WebGWASResult) (hfull : c.id_to_result.is_full = true)
    (_hpresent :
      (HashLruCache.lookup c.id_to_result.entries result.request_id).isSome = true)
    (k : Nat) (hk : c.id_to_result.lru = some k) (v : WebGWASResult)
    (hv : HashLruCache.lookup c.id_to_result.entries k = some v) (path : String)
    (hfile : v.local_result_file = some path) :
    ∃ c2, c.insert result = some (c2, some path) :=
  ⟨_, insert_full_success c result k v path hfull hk hv hfile⟩

/-- Witness for the amended C2 theorem: key 1 is present in a full
capacity-1 cache, and updating it still requests deletion of file "fa". -/
theorem insert_full_evicts_even_existing_key_witness :
    ∃ c2, (ResultsCache.mk ⟨1, [(1, ⟨1, some "fa"⟩)]⟩).insert ⟨1, some "fb"⟩ =
      some (c2, some "fa") :=
  insert_full_evicts_even_existing_key ⟨⟨1, [(1, ⟨1, some "fa"⟩)]⟩⟩
    ⟨1, some "fb"⟩ rfl rfl 1 rfl ⟨1, some "fa"⟩ rfl "fa" rfl

/-- C3: for every sequence of `insert` / `get` / `get_mut` operations on a
cache constructed with capacity C that completes without panicking, the number
of entries is at most C after every operation (every prefix of a sequence is
itself a sequence), and the capacity is still the construction-time C. -/
theorem cache_size_bounded_and_capacity_fixed (capacity : Nat)
    (ops : List CacheOp) (c' : ResultsCache)
    (h : (ResultsCache.new capacity).run ops = some c') :
    c'.id_to_result.entries.length ≤ capacity ∧
    c'.id_to_result.capacity = capacity := by
  obtain ⟨h1, h2⟩ :=
    run_preserves ops (ResultsCache.new capacity) c' (Nat.zero_le _) h
  refine ⟨?_, h2⟩
  calc c'.id_to_result.entries.length ≤ c'.id_to_result.capacity := h1
    _ = capacity := h2

/-- Witness for C3: a three-insert sequence on a capacity-2 cache. -/
theorem cache_size_bounded_and_capacity_fixed_witness :
    (ResultsCache.mk ⟨2, [(3, ⟨3, some "c"⟩), (2, ⟨2, some "b"⟩)]⟩
        : ResultsCache).id_to_result.entries.length ≤ 2 ∧
    (ResultsCache.mk ⟨2, [(3, ⟨3, some "c"⟩), (2, ⟨2, some "b"⟩)]⟩
        : ResultsCache).id_to_result.capacity = 2 :=
  cache_size_bounded_and_capacity_fixed 2
    [CacheOp.ins ⟨1, some "a"⟩, CacheOp.ins ⟨2, some "b"⟩,
      CacheOp.ins ⟨3, some "c"⟩]
    ⟨⟨2, [(3, ⟨3, some "c"⟩), (2, ⟨2, some "b"⟩)]⟩⟩ rfl

/-- C4: eviction order is strictly least-recently-used. First conjunct: on any
successful insert into a full cache whose keys are distinct, the evicted entry
is the one at the least-recently-used end — its file path is the one whose
deletion is requested, and (when the inserted key differs) its key is gone from
the resulting cache. Remaining conjuncts: recency is updated by every
successful `insert`, `get` and `get_mut` (the touched key moves to the
most-recently-used end), and the scripted access pattern with capacity 2:
inserting 1, 2, 3 evicts 1 (file "fa" deleted), then `get 2` followed by
inserting 4 evicts 3 (file "fc" deleted), not 2. -/
theorem lru_eviction_order :
    (∀ (c : ResultsCache) (result : WebGWASResult) (c2 : ResultsCache)
        (p : Option String),
        (c.id_to_result.entries.map Prod.fst).Nodup →
        c.id_to_result.is_full = true →
        c.insert result = some (c2, p) →
        ∃ k v, c.id_to_result.entries.getLast? = some (k, v) ∧
          p = v.local_result_file ∧
          (result.request_id ≠ k → ∀ e ∈ c2.id_to_result.entries, e.1 ≠ k)) ∧
    (∀ (c : ResultsCache) (result : WebGWASResult) (c2 : ResultsCache)
        (p : Option String),
        c.insert result = some (c2, p) →
        c2.id_to_result.entries.head? = some (result.request_id, result)) ∧
    (∀ (c : ResultsCache) (id : Nat) (v : WebGWASResult),
        (c.get id).1 = some v →
        ((c.get id).2).id_to_result.entries.head? = some (id, v)) ∧
    (∀ (c : ResultsCache) (id : Nat) (v : WebGWASResult),
        (c.get_mut id).1 = some v →
        ((c.get_mut id).2).id_to_result.entries.head? = some (id, v)) ∧
    ((ResultsCache.new 2).insert ⟨1, some "fa"⟩ =
        some (⟨⟨2, [(1, ⟨1, some "fa"⟩)]⟩⟩, none) ∧
      (ResultsCache.mk ⟨2, [(1, ⟨1, some "fa"⟩)]⟩).insert ⟨2, some "fb"⟩ =
        some (⟨⟨2, [(2, ⟨2, some "fb"⟩), (1, ⟨1, some "fa"⟩)]⟩⟩, none) ∧
      (ResultsCache.mk ⟨2, [(2, ⟨2, some "fb"⟩), (1, ⟨1, some "fa"⟩)]⟩).insert
          ⟨3, some "fc"⟩ =
        some (⟨⟨2, [(3, ⟨3, some "fc"⟩), (2, ⟨2, some "fb"⟩)]⟩⟩, some "fa") ∧
      (ResultsCache.mk ⟨2, [(3, ⟨3, some "fc"⟩), (2, ⟨2, some "fb"⟩)]⟩).get 2 =
        (some ⟨2, some "fb"⟩,
          ⟨⟨2, [(2, ⟨2, some "fb"⟩), (3, ⟨3, some "fc"⟩)]⟩⟩) ∧
      (ResultsCache.mk ⟨2, [(2, ⟨2, some "fb"⟩), (3, ⟨3, some "fc"⟩)]⟩).insert
          ⟨4, some "fd"⟩ =
        some (⟨⟨2, [(4, ⟨4, some "fd"⟩), (2, ⟨2, some "fb"⟩)]⟩⟩, some "fc")) := by
  refine ⟨insert_full_evicts_lru, rc_insert_head, rc_get_hit_head, ?_,
    rfl, rfl, rfl, rfl, rfl⟩
  intro c id v h
  rw [rc_get_mut_eq_get] at h
  rw [rc_get_mut_eq_get]
  exact rc_get_hit_head c id v h

/-- Witness for C4's universally quantified first conjunct at a concrete full
cache of capacity 1. -/
theorem lru_eviction_order_witness :
    ∃ k v,
      (ResultsCache.mk ⟨1, [(7, ⟨7, some "w7"⟩)]⟩).id_to_result.entries.getLast? =
        some (k, v) ∧
      (some "w7" : Option String) = v.local_result_file ∧
      ((⟨8, some "w8"⟩ : WebGWASResult).request_id ≠ k →
        ∀ e ∈ (ResultsCache.mk
            ⟨1, [(8, ⟨8, some "w8"⟩)]⟩).id_to_result.entries,
          e.1 ≠ k) :=
  lru_eviction_order.1 ⟨⟨1, [(7, ⟨7, some "w7"⟩)]⟩⟩ ⟨8, some "w8"⟩
    ⟨⟨1, [(8, ⟨8, some "w8"⟩)]⟩⟩ (some "w7") (by decide) rfl rfl

/-- C8: `get` and `get_mut` on an identifier absent from the cache return
`none` and leave the cache state completely unchanged — no entry is added or
removed and the recency order is untouched. -/
theorem get_miss_no_mutation (c : ResultsCache) (id : Nat)
    (h : HashLruCache.lookup c.id_to_result.entries id = none) :
    c.get id = (none, c) ∧ c.get_mut id = (none, c) := by
  have hm := get_miss c.id_to_result id h
  constructor
  · unfold ResultsCache.get
    rw [hm]
  · rw [rc_get_mut_eq_get]
    unfold ResultsCache.get
    rw [hm]

/-- Witness for C8 at a concrete cache and a missing identifier. -/
theorem get_miss_no_mutation_witness :
    (ResultsCache.mk ⟨2, [(1, ⟨1, some "a"⟩)]⟩).get 9 =
        (none, ⟨⟨2, [(1, ⟨1, some "a"⟩)]⟩⟩) ∧
    (ResultsCache.mk ⟨2, [(1, ⟨1, some "a"⟩)]⟩).get_mut 9 =
        (none, ⟨⟨2, [(1, ⟨1, some "a"⟩)]⟩⟩) :=
  get_miss_no_mutation ⟨⟨2, [(1, ⟨1, some "a"⟩)]⟩⟩ 9 rfl

/-- C9: a `ResultsCache` constructed with capacity 0 reports itself full while
empty, so the first `insert` reaches `lru().unwrap()` on an empty cache
(lib.rs line 155) and panics; a zero-capacity cache can never accept any
entry. -/
theorem zero_capacity_insert_panics (result : WebGWASResult) :
    (ResultsCache.new 0).insert result = none := rfl

/-- Witness for C9 at a concrete result. -/
theorem zero_capacity_insert_panics_witness :
    (ResultsCache.new 0).insert ⟨1, some "f"⟩ = none :=
  zero_capacity_insert_panics ⟨1, some "f"⟩

lemma collectOption_eq_none {α : Type} (l : List (Option α)) (h : none ∈ l) :
    collectOption l = none := by
  induction l with
  | nil => cases h
  | cons hd tl ih =>
    cases hd with
    | none => rfl
    | some a =>
      rcases List.mem_cons.mp h with h1 | h2
      · cases h1
      · show (collectOption tl).map (a :: ·) = none
        rw [ih h2]
        rfl

lemma collectOption_length {α β : Type} (f : α → Option β) (l : List α)
    (h : ∀ x ∈ l, (f x).isSome = true) :
    ∃ v, collectOption (l.map f) = some v ∧ v.length = l.length := by
  induction l with
  | nil => exact ⟨[], rfl, rfl⟩
  | cons hd tl ih =>
    obtain ⟨v, hv, hlen⟩ := ih (fun x hx => h x (List.mem_cons_of_mem hd hx))
    have hhd := h hd (List.mem_cons_self hd tl)
    cases hf : f hd with
    | none => rw [hf] at hhd; cases hhd
    | some b =>
      refine ⟨b :: v, ?_, by simp [hlen]⟩
      show collectOption (f hd :: tl.map f) = some (b :: v)
      rw [hf]
      show (collectOption (tl.map f)).map (b :: ·) = some (b :: v)
      rw [hv]
      rfl

lemma fitQualityRow_eq_none (gp : Option Int × Option Int)
    (h : gp.1 = none ∨ gp.2 = none) : fitQualityRow gp = none := by
  obtain ⟨g, p⟩ := gp
  rcases h with h | h
  · simp only at h
    subst h
    cases p <;> rfl
  · simp only at h
    subst h
    cases g <;> rfl

lemma fitQualityRow_isSome (gp : Option Int × Option Int)
    (h1 : gp.1.isSome = true) (h2 : gp.2.isSome = true) :
    (fitQualityRow gp).isSome = true := by
  obtain ⟨g, p⟩ := gp
  obtain ⟨gv, hg⟩ := Option.isSome_iff_exists.mp h1
  obtain ⟨pv, hp⟩ := Option.isSome_iff_exists.mp h2
  simp only at hg hp
  subst hg
  subst hp
  rfl

lemma setupResultsDir_ok (fs : Fs) :
    setupResultsDir fs false = Except.ok ⟨true, [], fs.other_files⟩ := by
  unfold setupResultsDir
  cases hre : fs.results_dir_exists <;> rfl

lemma appStateNew_ok_spec (env : StartupEnv) (st : AppState) (fs2 : Fs)
    (h : appStateNew env = .ok (st, fs2)) :
    ∃ home reference,
      env.home = some home ∧
      setupResultsDir env.fs env.remove_dir_fails = Except.ok fs2 ∧
      loadFitQuality env.gwas_r2 env.phenotype_r2 = some reference ∧
      st = ⟨home ++ "/webgwas", reference, ResultsCache.new env.cache_capacity⟩ := by
  unfold appStateNew at h
  split at h
  · cases h
  · rename_i home hhome
    split at h
    · cases h
    · rename_i fsx hsetup
      split at h
      · cases h
      · split at h
        · cases h
        · split at h
          · cases h
          · rename_i reference hload
            simp only [StartupOutcome.ok.injEq, Prod.mk.injEq] at h
            obtain ⟨h1, h2⟩ := h
            subst h2
            exact ⟨home, reference, hhome, hsetup, hload, h1.symm⟩

/-- C5: during `AppState::new`, a pre-existing results directory is deleted in
its entirety and recreated empty (other files under the root untouched) before
the state is returned; if the deletion fails, initialization returns the
storage error instead of silently ignoring it. -/
theorem startup_clears_results_dir (env : StartupEnv) (home : String)
    (hhome : env.home = some home) (hexists : env.fs.results_dir_exists = true) :
    (env.remove_dir_fails = false →
      setupResultsDir env.fs env.remove_dir_fails =
        Except.ok ⟨true, [], env.fs.other_files⟩ ∧
      ∀ st fs2, appStateNew env = .ok (st, fs2) →
        fs2 = ⟨true, [], env.fs.other_files⟩) ∧
    (env.remove_dir_fails = true →
      appStateNew env = .failed "Failed to clear results directory") := by
  constructor
  · intro hrf
    have hsetup : setupResultsDir env.fs env.remove_dir_fails =
        Except.ok ⟨true, [], env.fs.other_files⟩ := by
      rw [hrf]
      exact setupResultsDir_ok env.fs
    refine ⟨hsetup, ?_⟩
    intro st fs2 hok
    obtain ⟨home2, reference, _, hsetup2, _, _⟩ :=
      appStateNew_ok_spec env st fs2 hok
    rw [hsetup] at hsetup2
    simp only [Except.ok.injEq] at hsetup2
    exact hsetup2.symm
  · intro hrt
    have hsetup : setupResultsDir env.fs env.remove_dir_fails =
        Except.error "Failed to clear results directory" := by
      unfold setupResultsDir
      rw [hexists, hrt]
      rfl
    unfold appStateNew
    rw [hhome]
    dsimp only
    rw [hsetup]

/-- Witness for C5 at a concrete environment whose results directory exists
and whose removal fails. -/
theorem startup_clears_results_dir_witness :
    ((⟨some "h", ⟨true, ["stale"], ["keep"]⟩, true, true, true, [some 1],
        [some 2], 4⟩ : StartupEnv).remove_dir_fails = false →
      setupResultsDir ⟨true, ["stale"], ["keep"]⟩ true =
        Except.ok ⟨true, [], ["keep"]⟩ ∧
      ∀ st fs2,
        appStateNew ⟨some "h", ⟨true, ["stale"], ["keep"]⟩, true, true, true,
          [some 1], [some 2], 4⟩ = .ok (st, fs2) →
        fs2 = ⟨true, [], ["keep"]⟩) ∧
    ((⟨some "h", ⟨true, ["stale"], ["keep"]⟩, true, true, true, [some 1],
        [some 2], 4⟩ : StartupEnv).remove_dir_fails = true →
      appStateNew ⟨some "h", ⟨true, ["stale"], ["keep"]⟩, true, true, true,
        [some 1], [some 2], 4⟩ = .failed "Failed to clear results directory") :=
  startup_clears_results_dir
    ⟨some "h", ⟨true, ["stale"], ["keep"]⟩, true, true, true, [some 1],
      [some 2], 4⟩ "h" rfl rfl

/-- C6: when a zipped row of the fit-quality columns has a null in either
cell, the whole load collapses to `none` (a single null invalidates the load,
surfaced as the `DataIntegrityError`-class failure at lib.rs line 122), and no
`AppState` is ever constructed, so no partially-loaded reference vector is
exposed. -/
theorem fit_quality_null_fails_load (env : StartupEnv) (i : Nat)
    (hi : i < (env.gwas_r2.zip env.phenotype_r2).length)
    (hnull : ((env.gwas_r2.zip env.phenotype_r2).get ⟨i, hi⟩).1 = none ∨
      ((env.gwas_r2.zip env.phenotype_r2).get ⟨i, hi⟩).2 = none) :
    loadFitQuality env.gwas_r2 env.phenotype_r2 = none ∧
    ∀ st fs2, appStateNew env ≠ .ok (st, fs2) := by
  have hrow := fitQualityRow_eq_none _ hnull
  have hmem : (none : Option PhenotypeFitQuality) ∈
      (env.gwas_r2.zip env.phenotype_r2).map fitQualityRow := by
    have hm := List.mem_map_of_mem fitQualityRow
      ((env.gwas_r2.zip env.phenotype_r2).get_mem i hi)
    rw [hrow] at hm
    exact hm
  have hload : loadFitQuality env.gwas_r2 env.phenotype_r2 = none :=
    collectOption_eq_none _ hmem
  refine ⟨hload, ?_⟩
  intro st fs2 hok
  obtain ⟨_, reference, _, _, hload2, _⟩ := appStateNew_ok_spec env st fs2 hok
  rw [hload] at hload2
  cases hload2

/-- Witness for C6: a one-row file whose `gwas_r2` cell is null. -/
theorem fit_quality_null_fails_load_witness :
    loadFitQuality [none] [some 1] = none ∧
    ∀ st fs2,
      appStateNew ⟨some "h", ⟨false, [], []⟩, false, true, true, [none],
        [some 1], 2⟩ ≠ .ok (st, fs2) :=
  fit_quality_null_fails_load
    ⟨some "h", ⟨false, [], []⟩, false, true, true, [none], [some 1], 2⟩ 0
    (by decide) (Or.inl rfl)

/-- C7 counterexample: with `HOME` unset, `AppState::new` panics on the
`expect` at lib.rs line 46; it does not return a recoverable error result as
the claim states. -/
theorem home_missing_panics_cex :
    appStateNew ⟨none, ⟨false, [], []⟩, false, true, true, [], [], 4⟩ =
      StartupOutcome.panicked "Failed to read $HOME" := rfl

/-- C7 (amended): whenever the home location cannot be determined,
`AppState::new` panics (crashes the process via `expect`) rather than
returning a recoverable `EnvironmentError` result. -/
theorem home_missing_panics (env : StartupEnv) (h : env.home = none) :
    appStateNew env = .panicked "Failed to read $HOME" := by
  unfold appStateNew
  rw [h]

/-- Witness for the amended C7 theorem at a second concrete environment. -/
theorem home_missing_panics_witness :
    appStateNew ⟨none, ⟨true, ["x"], ["y"]⟩, true, false, false, [none], [], 0⟩ =
      StartupOutcome.panicked "Failed to read $HOME" :=
  home_missing_panics
    ⟨none, ⟨true, ["x"], ["y"]⟩, true, false, false, [none], [], 0⟩ rfl

/-- C10: the fit-quality load zips the two columns, so when they have unequal
lengths the pairing silently truncates to the shorter column: if every zipped
row is fully present, `AppState::new` succeeds and the loaded
`fit_quality_reference` has length `min` of the two column lengths — nulls
beyond the shorter column are never even inspected. -/
theorem unequal_columns_truncate (env : StartupEnv) (home : String)
    (hhome : env.home = some home) (hdb : env.db_and_cohorts_ok = true)
    (hfile : env.fit_quality_file_ok = true)
    (hremove : env.remove_dir_fails = false)
    (hall : ∀ gp ∈ env.gwas_r2.zip env.phenotype_r2,
      gp.1.isSome = true ∧ gp.2.isSome = true) :
    ∃ st fs2, appStateNew env = .ok (st, fs2) ∧
      st.fit_quality_reference.length =
        min env.gwas_r2.length env.phenotype_r2.length := by
  have hrows : ∀ gp ∈ env.gwas_r2.zip env.phenotype_r2,
      (fitQualityRow gp).isSome = true := fun gp hgp =>
    fitQualityRow_isSome gp (hall gp hgp).1 (hall gp hgp).2
  obtain ⟨v, hv, hlen⟩ := collectOption_length fitQualityRow _ hrows
  have hload : loadFitQuality env.gwas_r2 env.phenotype_r2 = some v := hv
  have hsetup : setupResultsDir env.fs env.remove_dir_fails =
      Except.ok ⟨true, [], env.fs.other_files⟩ := by
    rw [hremove]
    exact setupResultsDir_ok env.fs
  refine ⟨⟨home ++ "/webgwas", v, ResultsCache.new env.cache_capacity⟩,
    ⟨true, [], env.fs.other_files⟩, ?_, ?_⟩
  · unfold appStateNew
    rw [hhome]
    dsimp only
    rw [hsetup]
    dsimp only
    rw [hdb, hfile, hload]
    rfl
  · show v.length = min env.gwas_r2.length env.phenotype_r2.length
    rw [hlen, List.length_zip]

/-- Witness for C10: three `gwas_r2` rows (the third even null) against two
`phenotype_r2` rows load successfully with two reference entries. -/
theorem unequal_columns_truncate_witness :
    ∃ st fs2,
      appStateNew ⟨some "h", ⟨false, [], []⟩, false, true, true,
        [some 1, some 2, none], [some 5, some 6], 3⟩ = .ok (st, fs2) ∧
      st.fit_quality_reference.length =
        min ([some 1, some 2, none] : List (Option Int)).length
          ([some 5, some 6] : List (Option Int)).length :=
  unequal_columns_truncate
    ⟨some "h", ⟨false, [], []⟩, false, true, true, [some 1, some 2, none],
      [some 5, some 6], 3⟩ "h" rfl rfl rfl rfl (by decide)
